import Mathlib

/-!
Verification of the trust-platform runtime specification against a shallow
embedding of the source.  Each section embeds one module of the Rust source
tree (crates/trust-debug/src/adapter/stop.rs, crates/trust-runtime/src/
historian.rs, registry.rs, web/pairing.rs, io/mqtt.rs) as executable Lean
definitions, and proves the specified properties about them.
-/

set_option maxRecDepth 4000

/-! ## Debug stop coordinator (crates/trust-debug/src/adapter/stop.rs) -/

namespace StopAdapter

/-- Embeds trust_runtime::debug::DebugStopReason. -/
inductive DebugStopReason where
  | Breakpoint
  | Step
  | Pause
  | Entry
deriving DecidableEq, Repr

/-- Embeds trust_runtime::debug::SourceLocation: file id plus a start/end byte
range (the Rust field named end is called endByte here because end is a Lean
keyword). -/
structure SourceLocation where
  fileId : Nat
  startByte : Nat
  endByte : Nat
deriving DecidableEq, Repr

/-- Embeds trust_runtime::debug::DebugStop.  Generations are u32 counters in
the source; the claims never exercise u32 overflow of generations, so they are
carried as Nat. -/
structure DebugStop where
  reason : DebugStopReason
  location : Option SourceLocation
  threadId : Option Nat
  breakpointGeneration : Option Nat
deriving DecidableEq, Repr

/-- The breakpoint-specific filter inside StopCoordinator::should_emit_stop:
a Breakpoint stop needs a location, a generation, and agreement of that
generation with the file's current generation (DebugControl::
breakpoint_generation, modelled as the function currentGeneration from file id
to the optional current counter value). -/
def breakpointChecksPass (currentGeneration : Nat → Option Nat)
    (stop : DebugStop) : Bool :=
  match stop.location with
  | none => false
  | some location =>
    match stop.breakpointGeneration with
    | none => false
    | some generation =>
      decide (currentGeneration location.fileId = some generation)

/-- Embeds StopCoordinator::should_emit_stop.  The first component is the
emit decision, the second the value of the pause_expected flag afterwards
(the source consumes the flag with swap/store in every branch). -/
def should_emit_stop (pauseExpected : Bool)
    (currentGeneration : Nat → Option Nat) (stop : DebugStop) : Bool × Bool :=
  let pauseOk :=
    match stop.reason with
    | .Pause | .Entry => pauseExpected
    | .Breakpoint | .Step => true
  if !pauseOk then (false, false)
  else
    match stop.reason with
    | .Breakpoint => (breakpointChecksPass currentGeneration stop, false)
    | _ => (true, false)

/-- Sequence numbers are allocated from a shared AtomicU32 with wrapping
fetch_add; the modulus of that counter. -/
def U32_MOD : Nat := 2 ^ 32

/-- A protocol event as emitted by StopCoordinator::emit_stop: the wire seq
field (a u32) and the event name. -/
structure Event where
  seq : Nat
  name : String
deriving DecidableEq, Repr

/-- Embeds StopCoordinator::emit_stop.  The allocation counter is carried as
the total number of fetch_add calls performed so far; each allocated wire
value is the counter reduced mod 2^32, which agrees with the wrapping u32
counter of the source.  Serialization of the derived Serialize impls cannot
fail and the host writes are modelled as succeeding; watchChanged is the value
returned by stop_control.take_watch_changed(). -/
def emit_stop (seq : Nat) (watchChanged : Bool) : List Event × Nat :=
  let outputEvent : Event := { seq := seq % U32_MOD, name := "output" }
  let stoppedEvent : Event := { seq := (seq + 1) % U32_MOD, name := "stopped" }
  if watchChanged then
    ([outputEvent, stoppedEvent, { seq := (seq + 2) % U32_MOD, name := "invalidated" }],
      seq + 3)
  else
    ([outputEvent, stoppedEvent], seq + 2)

/-- One iteration of the receive loop in StopCoordinator::spawn: filter the
stop through should_emit_stop, then emit.  Returns the emitted events, the
new pause_expected flag and the new allocation counter. -/
def coordinatorStep (pauseExpected : Bool) (currentGeneration : Nat → Option Nat)
    (seq : Nat) (stop : DebugStop) (watchChanged : Bool) :
    List Event × Bool × Nat :=
  let decision := should_emit_stop pauseExpected currentGeneration stop
  if decision.1 then
    let emitted := emit_stop seq watchChanged
    (emitted.1, decision.2, emitted.2)
  else
    ([], decision.2, seq)

/-- The receive loop of StopCoordinator::spawn over a finite stream of stops
(each paired with the watch-changed flag observed at emission time).  Returns
all emitted events in order together with the final allocation counter. -/
def runCoordinator (pauseExpected : Bool) (currentGeneration : Nat → Option Nat)
    (seq : Nat) : List (DebugStop × Bool) → List Event × Nat
  | [] => ([], seq)
  | (stop, watchChanged) :: rest =>
    let step := coordinatorStep pauseExpected currentGeneration seq stop watchChanged
    let tail := runCoordinator step.2.1 currentGeneration step.2.2 rest
    (step.1 ++ tail.1, tail.2)

/-- The wire sequence values a wrapping u32 counter starting at seq hands out
over n consecutive allocations. -/
def seqsFrom (seq : Nat) : Nat → List Nat
  | 0 => []
  | n + 1 => seq % U32_MOD :: seqsFrom (seq + 1) n

end StopAdapter

/-! ## Historian (crates/trust-runtime/src/historian.rs) -/

namespace Historian

/-- Embeds historian::RecordingMode. -/
inductive RecordingMode where
  | All
  | Allowlist
deriving DecidableEq, Repr

/-- Embeds historian::HistorianValue.  The source's f64 payload is modelled
as a rational number: every comparison the historian performs on it is an
order comparison, which ℚ models exactly for the non-NaN floats the claims
quantify over. -/
inductive HistorianValue where
  | Bool (value : Bool)
  | Integer (value : Int)
  | Unsigned (value : Nat)
  | Float (value : ℚ)
  | String (value : String)
deriving DecidableEq, Repr

/-- Embeds HistorianValue::as_f64. -/
def historianValueAsNumeric : HistorianValue → Option ℚ
  | .Bool value => some (if value then 1 else 0)
  | .Integer value => some (value : ℚ)
  | .Unsigned value => some (value : ℚ)
  | .Float value => some value
  | .String _ => none

/-- Embeds historian::HistorianSample (the Rust field named variable is called
variable_path here because variable is a Lean keyword). -/
structure HistorianSample where
  timestamp_ms : Nat
  source_time_ns : Int
  variable_path : String
  value : HistorianValue
deriving DecidableEq, Repr

/-- Embeds trust_runtime::value::Value, the IEC scalar/composite universe the
snapshot flattener walks.  Machine integers are carried as Int/Nat (their
ranges are invariants of the upstream executor, which is out of scope here);
f32/f64 are carried as ℚ; durations carry their as_millis value and
date/time-of-day values carry their ticks/nanos, which is all
to_historian_value reads from them. -/
inductive Value where
  | Bool (value : Bool)
  | SInt (value : Int)
  | Int (value : Int)
  | DInt (value : Int)
  | LInt (value : Int)
  | USInt (value : Nat)
  | UInt (value : Nat)
  | UDInt (value : Nat)
  | ULInt (value : Nat)
  | Real (value : ℚ)
  | LReal (value : ℚ)
  | Byte (value : Nat)
  | Word (value : Nat)
  | DWord (value : Nat)
  | LWord (value : Nat)
  | Time (millis : Int)
  | LTime (millis : Int)
  | Date (ticks : Int)
  | LDate (nanos : Int)
  | Tod (ticks : Int)
  | LTod (nanos : Int)
  | Dt (ticks : Int)
  | Ldt (nanos : Int)
  | String (value : String)
  | WString (value : String)
  | Char (byte : Nat)
  | WChar (code : Nat)
  | Enum (variantName : String)
  | Struct (fields : List (String × Value))
  | Array (elements : List Value)
  | Instance (instanceId : Nat)
  | Ref (target : Option Nat)
  | Null
deriving Repr

/-- Embeds historian::to_historian_value.  Composites (struct, array,
instance, reference, null) fall through to none exactly as the catch-all arm
does. -/
def to_historian_value : Value → Option HistorianValue
  | .Bool value => some (.Bool value)
  | .SInt value => some (.Integer value)
  | .Int value => some (.Integer value)
  | .DInt value => some (.Integer value)
  | .LInt value => some (.Integer value)
  | .USInt value => some (.Unsigned value)
  | .UInt value => some (.Unsigned value)
  | .UDInt value => some (.Unsigned value)
  | .ULInt value => some (.Unsigned value)
  | .Real value => some (.Float value)
  | .LReal value => some (.Float value)
  | .Byte value => some (.Unsigned value)
  | .Word value => some (.Unsigned value)
  | .DWord value => some (.Unsigned value)
  | .LWord value => some (.Unsigned value)
  | .Time millis => some (.Integer millis)
  | .LTime millis => some (.Integer millis)
  | .Date ticks => some (.Integer ticks)
  | .LDate nanos => some (.Integer nanos)
  | .Tod ticks => some (.Integer ticks)
  | .LTod nanos => some (.Integer nanos)
  | .Dt ticks => some (.Integer ticks)
  | .Ldt nanos => some (.Integer nanos)
  | .String value => some (.String value)
  | .WString value => some (.String value)
  | .Char byte => some (.String (String.mk [Char.ofNat byte]))
  | .WChar code =>
    if code < 0xD800 ∨ (0xDFFF < code ∧ code < 0x110000) then
      some (.String (String.mk [Char.ofNat code]))
    else
      none
  | .Enum variantName => some (.String variantName)
  | _ => none

/-- Embeds memory::VariableStorage as far as the historian reads it: globals,
retained values, and the instance table. -/
structure VariableStorage where
  globals : List (String × Value)
  retain : List (String × Value)
  instances : List (Nat × List (String × Value))
deriving Repr

/-- Embeds debug::DebugSnapshot: the cloned storage plus the runtime clock
(snapshot.now.as_nanos()). -/
structure DebugSnapshot where
  storage : VariableStorage
  nowNanos : Int
deriving Repr

/-- Embeds historian::AlertTracker. -/
structure AlertTracker where
  active : Bool
  consecutive : Nat
deriving DecidableEq, Repr

/-- Embeds historian::HookTarget. -/
inductive HookTarget where
  | Log
  | File (path : String)
  | Webhook (url : String)
deriving DecidableEq, Repr

/-- Embeds historian::CompiledAlertRule; thresholds are ℚ for the same reason
as HistorianValue.Float. -/
structure CompiledAlertRule where
  name : String
  variable_path : String
  above : Option ℚ
  below : Option ℚ
  debounce_samples : Nat
  hook : Option HookTarget
deriving DecidableEq, Repr

/-- Embeds historian::HistorianConfig as far as capture/query read it.  A
compiled include pattern (glob::Pattern, an external crate) is modelled
semantically as its matching predicate. -/
structure HistorianConfig where
  enabled : Bool
  sample_interval_ms : Nat
  mode : RecordingMode
  max_entries : Nat

/-- Embeds historian::AlertState. -/
inductive AlertState where
  | Triggered
  | Cleared
deriving DecidableEq, Repr

/-- Embeds historian::HistorianAlertEvent. -/
structure HistorianAlertEvent where
  timestamp_ms : Nat
  rule : String
  variable_path : String
  state : AlertState
  value : Option ℚ
  threshold : String
deriving DecidableEq, Repr

/-- Embeds historian::should_record. -/
def should_record (path : String) (config : HistorianConfig)
    (patterns : List (String → Bool)) : Bool :=
  match config.mode with
  | .All => true
  | .Allowlist => patterns.any (fun pattern => pattern path)

/-- Embeds historian::flatten_value.  The source recursion is unbounded (it
follows instance ids through the storage table and would not terminate on a
cyclic instance graph); the fuel argument makes the embedding total, and every
claim proved below is independent of the fuel. -/
def flatten_value (fuel : Nat) (path : String) (value : Value)
    (storage : VariableStorage) (config : HistorianConfig)
    (patterns : List (String → Bool)) : List (String × HistorianValue) :=
  match fuel with
  | 0 => []
  | fuel + 1 =>
    match to_historian_value value with
    | some histValue =>
      if should_record path config patterns then [(path, histValue)] else []
    | none =>
      match value with
      | .Struct fields =>
        fields.flatMap fun field =>
          flatten_value fuel (path ++ "." ++ field.1) field.2 storage config patterns
      | .Array elements =>
        (elements.enum.map fun element =>
          flatten_value fuel (path ++ "[" ++ toString element.1 ++ "]")
            element.2 storage config patterns).flatten
      | .Instance instanceId =>
        match (storage.instances.find? fun entry => entry.1 = instanceId) with
        | some instanceEntry =>
          instanceEntry.2.flatMap fun field =>
            flatten_value fuel (path ++ "." ++ field.1) field.2 storage config patterns
        | none => []
      | _ => []

/-- Embeds historian::collect_snapshot_samples. -/
def collect_snapshot_samples (fuel : Nat) (snapshot : DebugSnapshot)
    (config : HistorianConfig) (patterns : List (String → Bool))
    (timestamp_ms : Nat) : List HistorianSample :=
  let globalValues := snapshot.storage.globals.flatMap fun entry =>
    flatten_value fuel entry.1 entry.2 snapshot.storage config patterns
  let retainValues := snapshot.storage.retain.flatMap fun entry =>
    flatten_value fuel ("retain." ++ entry.1) entry.2 snapshot.storage config patterns
  (globalValues ++ retainValues).map fun entry =>
    { timestamp_ms, source_time_ns := snapshot.nowNanos,
      variable_path := entry.1, value := entry.2 }

/-- Association-list lookup, the shallow model of HashMap::get keyed by
strings (iteration order never matters to the historian maps). -/
def alistGet (entries : List (String × α)) (key : String) : Option α :=
  (entries.find? fun entry => entry.1 = key).map (fun entry => entry.2)

/-- Association-list insert-or-replace, the shallow model of HashMap::insert. -/
def alistPut (entries : List (String × α)) (key : String) (value : α) :
    List (String × α) :=
  match entries with
  | [] => [(key, value)]
  | entry :: rest =>
    if entry.1 = key then (key, value) :: rest
    else entry :: alistPut rest key value

/-- u32 saturating_add, as used for AlertTracker::consecutive. -/
def satAddU32 (a b : Nat) : Nat := min (a + b) (2 ^ 32 - 1)

/-- u64 saturating_add, as used for the samples_total / alerts_total
counters. -/
def satAddU64 (a b : Nat) : Nat := min (a + b) (2 ^ 64 - 1)

/-- Embeds historian::threshold_breached. -/
def threshold_breached (value : ℚ) (above below : Option ℚ) : Bool :=
  (match above with
   | some limit => decide (limit < value)
   | none => false) ||
  (match below with
   | some limit => decide (value < limit)
   | none => false)

/-- Embeds historian::rule_threshold_text. -/
def rule_threshold_text (above below : Option ℚ) : String :=
  match above, below with
  | some _, some _ => "outside_band"
  | some _, none => "above"
  | none, some _ => "below"
  | none, none => "threshold"

/-- The body of the per-rule loop in historian::evaluate_alerts: one rule, one
capture.  Takes the tracker the entry API produced for the rule and returns
the updated tracker together with the emitted transition event, if any. -/
def alertRuleStep (rule : CompiledAlertRule) (latest : List (String × ℚ))
    (timestamp_ms : Nat) (tracker : AlertTracker) :
    AlertTracker × Option (HistorianAlertEvent × Option HookTarget) :=
  let value := alistGet latest rule.variable_path
  let breached :=
    match value with
    | some v => threshold_breached v rule.above rule.below
    | none => false
  if breached then
    let consecutive := satAddU32 tracker.consecutive 1
    if !tracker.active && decide (rule.debounce_samples ≤ consecutive) then
      ({ active := true, consecutive },
        some ({ timestamp_ms, rule := rule.name,
                variable_path := rule.variable_path, state := .Triggered,
                value, threshold := rule_threshold_text rule.above rule.below },
          rule.hook))
    else
      ({ tracker with consecutive }, none)
  else
    if tracker.active then
      ({ active := false, consecutive := 0 },
        some ({ timestamp_ms, rule := rule.name,
                variable_path := rule.variable_path, state := .Cleared,
                value, threshold := rule_threshold_text rule.above rule.below },
          rule.hook))
    else
      ({ tracker with consecutive := 0 }, none)

/-- Embeds historian::evaluate_alerts: fold alertRuleStep over the rules in
order, threading the tracker map (trackers.entry(name).or_default() is
lookup-or-default followed by insert of the updated tracker). -/
def evaluate_alerts (rules : List CompiledAlertRule)
    (latest : List (String × ℚ)) (timestamp_ms : Nat)
    (trackers : List (String × AlertTracker)) :
    List (HistorianAlertEvent × Option HookTarget) ×
      List (String × AlertTracker) :=
  match rules with
  | [] => ([], trackers)
  | rule :: rest =>
    let tracker := (alistGet trackers rule.name).getD
      { active := false, consecutive := 0 }
    let stepped := alertRuleStep rule latest timestamp_ms tracker
    let trackers2 := alistPut trackers rule.name stepped.1
    let tail := evaluate_alerts rest latest timestamp_ms trackers2
    (stepped.2.toList ++ tail.1, tail.2)

/-- Embeds the latest_numeric map built inside capture_snapshot_at: the last
numeric value per variable, in sample order. -/
def latestNumeric (samples : List HistorianSample) : List (String × ℚ) :=
  samples.foldl
    (fun acc sample =>
      match historianValueAsNumeric sample.value with
      | some v => alistPut acc sample.variable_path v
      | none => acc)
    []

/-- HashSet::insert on the tracked-variable set, modelled as a
duplicate-free list. -/
def insertTracked (tracked : List String) (name : String) : List String :=
  if name ∈ tracked then tracked else tracked ++ [name]

/-- push_back followed by the while-loop popping the front while the length
exceeds the bound, as used for both the sample ring and the alert ring. -/
def pushBounded (bound : Nat) (ring : List α) (element : α) : List α :=
  boundedDrop (ring ++ [element])
where
  boundedDrop (ring : List α) : List α :=
    if bound < ring.length then
      match ring with
      | [] => []
      | _ :: rest => boundedDrop rest
    else ring
  termination_by ring.length

/-- Embeds historian::HistorianInner.  The on-disk journal written by
append_samples is carried as the journal field (an append-only list of
records). -/
structure HistorianInner where
  samples : List HistorianSample
  tracked_variables : List String
  samples_total : Nat
  last_capture_ms : Option Nat
  alert_trackers : List (String × AlertTracker)
  alerts : List HistorianAlertEvent
  alerts_total : Nat
  journal : List HistorianSample
deriving DecidableEq, Repr

/-- Embeds the HistorianService fields capture reads: the runtime config, the
compiled include patterns and the compiled alert rules. -/
structure HistorianService where
  config : HistorianConfig
  include_patterns : List (String → Bool)
  alert_rules : List CompiledAlertRule

/-- Embeds HistorianService::capture_snapshot_at.  Returns the recorded
count, the updated inner state, and the hooks collected for dispatch after
the lock is released; fuel is the flattening fuel of
collect_snapshot_samples. -/
def capture_snapshot_at (service : HistorianService) (fuel : Nat)
    (inner : HistorianInner) (snapshot : DebugSnapshot) (timestamp_ms : Nat) :
    Nat × HistorianInner × List (HookTarget × HistorianAlertEvent) :=
  let interval_ms := max service.config.sample_interval_ms 1
  let skip :=
    match inner.last_capture_ms with
    | some last => decide (timestamp_ms - last < interval_ms)
    | none => false
  if skip then
    (0, inner, [])
  else
    let samples := collect_snapshot_samples fuel snapshot service.config
      service.include_patterns timestamp_ms
    if samples.isEmpty then
      (0, { inner with last_capture_ms := some timestamp_ms }, [])
    else
      let journal := inner.journal ++ samples
      let ring := samples.foldl
        (fun ring sample => pushBounded service.config.max_entries ring sample)
        inner.samples
      let tracked := samples.foldl
        (fun tracked sample => insertTracked tracked sample.variable_path)
        inner.tracked_variables
      let evaluated := evaluate_alerts service.alert_rules
        (latestNumeric samples) timestamp_ms inner.alert_trackers
      let alertRing := evaluated.1.foldl
        (fun ring event => pushBounded 1000 ring event.1)
        inner.alerts
      let pendingHooks := evaluated.1.filterMap fun event =>
        event.2.map (fun target => (target, event.1))
      (samples.length,
        { samples := ring,
          tracked_variables := tracked,
          samples_total := satAddU64 inner.samples_total samples.length,
          last_capture_ms := some timestamp_ms,
          alert_trackers := evaluated.2,
          alerts := alertRing,
          alerts_total := evaluated.1.foldl
            (fun total _ => satAddU64 total 1) inner.alerts_total,
          journal },
        pendingHooks)

/-- Rust's cmp::clamp on usize, as used by query and alerts on limit. -/
def rustClamp (value lo hi : Nat) : Nat :=
  if value < lo then lo else if hi < value then hi else value

/-- Embeds the variable filter of HistorianService::query
(variable.is_none_or(.. == name)). -/
def matchesVariable (filter : Option String) (sample : HistorianSample) : Bool :=
  match filter with
  | none => true
  | some name => decide (sample.variable_path = name)

/-- Embeds the since filter of HistorianService::query
(since_ms.is_none_or(timestamp_ms >= value)). -/
def matchesSince (since_ms : Option Nat) (sample : HistorianSample) : Bool :=
  match since_ms with
  | none => true
  | some value => decide (value ≤ sample.timestamp_ms)

/-- Embeds HistorianService::query over the in-memory ring: newest first,
filtered, capped by the clamped limit, then restored to chronological
order. -/
def query (samples : List HistorianSample) (variableFilter : Option String)
    (since_ms : Option Nat) (limit : Nat) : List HistorianSample :=
  let limit := rustClamp limit 1 5000
  ((((samples.reverse.filter (matchesVariable variableFilter)).filter
      (matchesSince since_ms)).take limit).reverse)

/-- A run of the per-rule alert state machine over a sequence of captures
(each capture contributes its latest_numeric map and timestamp): the final
tracker and the states of the emitted events, in order. -/
def runAlertRule (rule : CompiledAlertRule) (tracker : AlertTracker) :
    List (List (String × ℚ) × Nat) → AlertTracker × List AlertState
  | [] => (tracker, [])
  | (latest, timestamp_ms) :: rest =>
    let stepped := alertRuleStep rule latest timestamp_ms tracker
    let tail := runAlertRule rule stepped.1 rest
    (tail.1, (stepped.2.map fun event => event.1.state).toList ++ tail.2)

/-- Strict Triggered/Cleared alternation of an event-state list, starting
from the given expected state. -/
def alternatesFrom : AlertState → List AlertState → Bool
  | _, [] => true
  | expected, state :: rest =>
    state = expected &&
      alternatesFrom (match expected with
        | .Triggered => .Cleared
        | .Cleared => .Triggered) rest

/-- The breach decision evaluate_alerts computes for a rule from the
latest_numeric map (value.is_some_and(threshold_breached ..)). -/
def breachedAt (rule : CompiledAlertRule) (latest : List (String × ℚ)) : Bool :=
  match alistGet latest rule.variable_path with
  | some v => threshold_breached v rule.above rule.below
  | none => false

end Historian

/-! ## Package registry (crates/trust-runtime/src/registry.rs) -/

namespace Registry

/-- Rotate right by n on a 32-bit word already reduced mod 2^32. -/
def rotr32 (x n : Nat) : Nat := ((x >>> n) ||| (x <<< (32 - n))) % 2 ^ 32

/-- The 64 SHA-256 round constants of FIPS 180-4, written in decimal. -/
def shaK : List Nat :=
  [1116352408, 1899447441, 3049323471, 3921009573, 961987163,
   1508970993, 2453635748, 2870763221, 3624381080, 310598401,
   607225278, 1426881987, 1925078388, 2162078206, 2614888103,
   3248222580, 3835390401, 4022224774, 264347078, 604807628,
   770255983, 1249150122, 1555081692, 1996064986, 2554220882,
   2821834349, 2952996808, 3210313671, 3336571891, 3584528711,
   113926993, 338241895, 666307205, 773529912, 1294757372,
   1396182291, 1695183700, 1986661051, 2177026350, 2456956037,
   2730485921, 2820302411, 3259730800, 3345764771, 3516065817,
   3600352804, 4094571909, 275423344, 430227734, 506948616,
   659060556, 883997877, 958139571, 1322822218, 1537002063,
   1747873779, 1955562222, 2024104815, 2227730452, 2361852424,
   2428436474, 2756734187, 3204031479, 3329325298]

/-- The eight SHA-256 initial hash words of FIPS 180-4, in decimal. -/
def shaH0 : List Nat :=
  [1779033703, 3144134277, 1013904242, 2773480762, 1359893119,
   2600822924, 528734635, 1541459225]

/-- SHA-256 padding: append 0x80, zero-fill to 56 mod 64, then the bit
length as 8 big-endian bytes. -/
def shaPad (message : List Nat) : List Nat :=
  let bitLength := message.length * 8
  let zeroCount := (119 - message.length % 64) % 64
  message ++ [0x80] ++ List.replicate zeroCount 0 ++
    ((List.range 8).map fun i => (bitLength >>> (8 * (7 - i))) % 256)

/-- Split a byte list into 64-byte blocks. -/
def shaBlocks (bytes : List Nat) : List (List Nat) :=
  match bytes with
  | [] => []
  | b :: rest => ((b :: rest).take 64) :: shaBlocks ((b :: rest).drop 64)
  termination_by bytes.length
  decreasing_by simp [List.drop]; omega

/-- Decode a 64-byte block into its 16 big-endian 32-bit words. -/
def shaWords (block : List Nat) : List Nat :=
  (List.range 16).map fun i =>
    ((block.getD (4 * i) 0) <<< 24) + ((block.getD (4 * i + 1) 0) <<< 16) +
      ((block.getD (4 * i + 2) 0) <<< 8) + block.getD (4 * i + 3) 0

/-- Extend the 16-word message schedule by the given number of words. -/
def shaExtend : Nat → List Nat → List Nat
  | 0, w => w
  | n + 1, w =>
    let w15 := w.getD (w.length - 15) 0
    let w2 := w.getD (w.length - 2) 0
    let s0 := (rotr32 w15 7) ^^^ (rotr32 w15 18) ^^^ (w15 >>> 3)
    let s1 := (rotr32 w2 17) ^^^ (rotr32 w2 19) ^^^ (w2 >>> 10)
    shaExtend n
      (w ++ [(w.getD (w.length - 16) 0 + s0 + w.getD (w.length - 7) 0 + s1) % 2 ^ 32])

/-- The SHA-256 working state. -/
structure ShaState where
  a : Nat
  b : Nat
  c : Nat
  d : Nat
  e : Nat
  f : Nat
  g : Nat
  h : Nat
deriving Repr

/-- One SHA-256 compression round. -/
def shaRound (state : ShaState) (k w : Nat) : ShaState :=
  let s1 := (rotr32 state.e 6) ^^^ (rotr32 state.e 11) ^^^ (rotr32 state.e 25)
  let ch := (state.e &&& state.f) ^^^ ((state.e ^^^ (2 ^ 32 - 1)) &&& state.g)
  let t1 := (state.h + s1 + ch + k + w) % 2 ^ 32
  let s0 := (rotr32 state.a 2) ^^^ (rotr32 state.a 13) ^^^ (rotr32 state.a 22)
  let maj := (state.a &&& state.b) ^^^ (state.a &&& state.c) ^^^ (state.b &&& state.c)
  let t2 := (s0 + maj) % 2 ^ 32
  { a := (t1 + t2) % 2 ^ 32, b := state.a, c := state.b, d := state.c,
    e := (state.d + t1) % 2 ^ 32, f := state.e, g := state.f, h := state.g }

/-- Compress one 64-byte block into the running 8-word hash state. -/
def shaCompress (hash : List Nat) (block : List Nat) : List Nat :=
  let schedule := shaExtend 48 (shaWords block)
  let start : ShaState :=
    { a := hash.getD 0 0, b := hash.getD 1 0, c := hash.getD 2 0,
      d := hash.getD 3 0, e := hash.getD 4 0, f := hash.getD 5 0,
      g := hash.getD 6 0, h := hash.getD 7 0 }
  let final := (List.range 64).foldl
    (fun state i => shaRound state (shaK.getD i 0) (schedule.getD i 0)) start
  [(hash.getD 0 0 + final.a) % 2 ^ 32, (hash.getD 1 0 + final.b) % 2 ^ 32,
   (hash.getD 2 0 + final.c) % 2 ^ 32, (hash.getD 3 0 + final.d) % 2 ^ 32,
   (hash.getD 4 0 + final.e) % 2 ^ 32, (hash.getD 5 0 + final.f) % 2 ^ 32,
   (hash.getD 6 0 + final.g) % 2 ^ 32, (hash.getD 7 0 + final.h) % 2 ^ 32]

/-- SHA-256 of a byte list, as a 32-byte list; the model of the sha2 crate's
Sha256 the registry hashes files and digest lines with. -/
def sha256Bytes (message : List Nat) : List Nat :=
  ((shaBlocks (shaPad message)).foldl shaCompress shaH0).flatMap fun word =>
    [(word >>> 24) % 256, (word >>> 16) % 256, (word >>> 8) % 256, word % 256]

/-- The lower-case hexadecimal digit for a value below 16. -/
def hexDigit (n : Nat) : Char :=
  if n < 10 then Char.ofNat (48 + n) else Char.ofNat (87 + n)

/-- Embeds registry::hex_string. -/
def hex_string (bytes : List Nat) : String :=
  String.mk (bytes.flatMap fun b => [hexDigit (b / 16 % 16), hexDigit (b % 16)])

/-- The UTF-8 bytes of a string (str::as_bytes). -/
def utf8Bytes (s : String) : List Nat :=
  s.toUTF8.toList.map fun b => b.toNat

/-- u64::to_le_bytes. -/
def u64LeBytes (n : Nat) : List Nat :=
  (List.range 8).map fun i => (n >>> (8 * i)) % 256

/-- Embeds registry::PackageFileDigest. -/
structure PackageFileDigest where
  path : String
  bytes : Nat
  sha256 : String
deriving DecidableEq, Repr

/-- Embeds registry::PackageMetadata. -/
structure PackageMetadata where
  name : String
  version : String
  resource_name : String
  bundle_version : Nat
  published_at_unix : Nat
  total_bytes : Nat
  package_sha256 : String
  files : List PackageFileDigest
deriving DecidableEq, Repr

/-- Embeds registry::aggregate_package_sha: SHA-256 over
path || 0x00 || sha256 || 0x00 || bytes_le for each file in order. -/
def aggregate_package_sha (files : List PackageFileDigest) : String :=
  hex_string (sha256Bytes (files.foldl
    (fun acc file =>
      acc ++ utf8Bytes file.path ++ [0] ++ utf8Bytes file.sha256 ++ [0] ++
        u64LeBytes file.bytes)
    []))

/-- Embeds registry::collect_file_digests over a bundle tree modelled as its
files (relative slash-separated path, content bytes): hash every file, then
sort by path (String order in Lean is code-point lexicographic, which matches
Rust's byte-wise str ordering because UTF-8 preserves code-point order). -/
def collect_file_digests (bundle : List (String × List Nat)) :
    List PackageFileDigest :=
  (bundle.map fun entry =>
    { path := entry.1, bytes := entry.2.length,
      sha256 := hex_string (sha256Bytes entry.2) : PackageFileDigest }).mergeSort
    fun left right => left.path ≤ right.path

/-- The pairwise comparison loop of verify_bundle_tree_against_metadata over
zip(metadata.files, digests). -/
def verifyPairs : List (PackageFileDigest × PackageFileDigest) →
    Except String Unit
  | [] => .ok ()
  | (expected, actual) :: rest =>
    if expected.path ≠ actual.path then
      .error "package verification failed: path mismatch"
    else if expected.bytes ≠ actual.bytes then
      .error "package verification failed: size mismatch"
    else if expected.sha256 ≠ actual.sha256 then
      .error "package verification failed: digest mismatch"
    else verifyPairs rest

/-- Embeds registry::verify_bundle_tree_against_metadata, applied to the
digests collect_file_digests reported for the bundle tree: compare the file
count, then each path/bytes/sha pair in order, then the aggregated package
digest. -/
def verify_bundle_tree_against_metadata (digests : List PackageFileDigest)
    (metadata : PackageMetadata) : Except String Unit :=
  if digests.length ≠ metadata.files.length then
    .error "package verification failed: file count mismatch"
  else
    match verifyPairs (metadata.files.zip digests) with
    | .error e => .error e
    | .ok () =>
      if metadata.package_sha256 ≠ aggregate_package_sha digests then
        .error "package verification failed: package_sha256 mismatch"
      else .ok ()

end Registry

/-! ## Pairing store (crates/trust-runtime/src/web/pairing.rs) -/

namespace Pairing

/-- Embeds security::AccessRole. -/
inductive AccessRole where
  | Viewer
  | Operator
  | Engineer
  | Admin
deriving DecidableEq, Repr

/-- Pairing codes live 300 seconds. -/
def PAIRING_CODE_TTL_SECS : Nat := 300

/-- Pairing tokens live 30 days. -/
def PAIRING_TOKEN_TTL_SECS : Nat := 30 * 24 * 60 * 60

/-- At most 256 enabled tokens. -/
def PAIRING_MAX_TOKENS : Nat := 256

/-- Embeds pairing::PairingToken. -/
structure PairingToken where
  id : String
  token : String
  created_at : Nat
  enabled : Bool
  role : AccessRole
  expires_at : Nat
deriving DecidableEq, Repr

/-- Embeds pairing::PendingCode. -/
structure PendingCode where
  code : String
  expires_at : Nat
deriving DecidableEq, Repr

/-- Embeds pairing::PairingState. -/
structure PairingState where
  tokens : List PairingToken
  pending : Option PendingCode
deriving DecidableEq, Repr

/-- Embeds pairing::PairingCode (the value start_pairing returns). -/
structure PairingCode where
  code : String
  expires_at : Nat
deriving DecidableEq, Repr

/-- Embeds pairing::PairingSummary. -/
structure PairingSummary where
  id : String
  enabled : Bool
  created_at : Nat
  expires_at : Nat
  role : AccessRole
  tail : String
deriving DecidableEq, Repr

/-- str::trim, over the character list (kernel-reducible model of
String.trim; trims the whitespace characters Char.isWhitespace knows). -/
def strTrim (s : String) : String :=
  String.mk (((s.toList.dropWhile fun c => c.isWhitespace).reverse.dropWhile
    fun c => c.isWhitespace).reverse)

/-- Embeds pairing::default_token_role. -/
def default_token_role : AccessRole := .Operator

/-- Embeds pairing::sanitize_requested_role. -/
def sanitize_requested_role (role : Option AccessRole) : AccessRole :=
  match role.getD .Operator with
  | .Admin => .Engineer
  | other => other

/-- Embeds pairing::prune_expired_tokens (retain keeps expires_at >= now). -/
def prune_expired_tokens (tokens : List PairingToken) (now : Nat) :
    List PairingToken :=
  tokens.filter fun entry => now ≤ entry.expires_at

/-- Embeds pairing::mask_tail: an ellipsis followed by the last four
characters of the token. -/
def mask_tail (token : String) : String :=
  "…" ++ String.mk (((token.toList.reverse).take 4).reverse)

/-- Embeds PairingStore::start_pairing.  The store's clock and the random
six-digit code are passed in (now() and generate_code() in the source); the
persisted file always mirrors the token list and is not modelled
separately. -/
def start_pairing (state : PairingState) (now : Nat) (code : String) :
    PairingCode × PairingState :=
  let pending : PendingCode := { code, expires_at := now + PAIRING_CODE_TTL_SECS }
  ({ code, expires_at := pending.expires_at },
    { tokens := prune_expired_tokens state.tokens now, pending := some pending })

/-- Embeds PairingStore::claim.  now, the requested role and the fresh random
token (generate_token() in the source) are parameters; returns the issued
token, if any, and the state after the call. -/
def claim (state : PairingState) (now : Nat) (code : String)
    (requested_role : Option AccessRole) (fresh_token : String) :
    Option String × PairingState :=
  let tokens := prune_expired_tokens state.tokens now
  match state.pending with
  | none => (none, { tokens, pending := none })
  | some pending =>
    if pending.expires_at < now then
      (none, { tokens, pending := none })
    else if pending.code ≠ strTrim code then
      (none, { tokens, pending := some pending })
    else if PAIRING_MAX_TOKENS ≤ (tokens.filter fun token => token.enabled).length then
      (none, { tokens, pending := none })
    else
      let issued : PairingToken :=
        { id := "pair-" ++ toString now, token := fresh_token,
          created_at := now, enabled := true,
          role := sanitize_requested_role requested_role,
          expires_at := now + PAIRING_TOKEN_TTL_SECS }
      (some fresh_token, { tokens := tokens ++ [issued], pending := none })

/-- Embeds PairingStore::validate_with_role (validate is its isSome). -/
def validate_with_role (state : PairingState) (now : Nat) (token : String) :
    Option AccessRole × PairingState :=
  let tokens := prune_expired_tokens state.tokens now
  ((tokens.find? fun entry => entry.enabled && entry.token = token).map
      fun entry => entry.role,
    { tokens, pending := state.pending })

/-- Embeds PairingStore::list. -/
def list (state : PairingState) (now : Nat) :
    List PairingSummary × PairingState :=
  let tokens := prune_expired_tokens state.tokens now
  (tokens.map fun entry =>
      { id := entry.id, enabled := entry.enabled,
        created_at := entry.created_at, expires_at := entry.expires_at,
        role := entry.role, tail := mask_tail entry.token },
    { tokens, pending := state.pending })

/-- Embeds PairingStore::revoke. -/
def revoke (state : PairingState) (now : Nat) (id : String) :
    Bool × PairingState :=
  let tokens := prune_expired_tokens state.tokens now
  let updated := tokens.map fun token =>
    if token.id = id then { token with enabled := false } else token
  ((tokens.any fun token => token.id = id),
    { tokens := updated, pending := state.pending })

end Pairing

/-! ## MQTT I/O driver (crates/trust-runtime/src/io/mqtt.rs) -/

namespace Mqtt

/-- Embeds error::RuntimeError as far as the MQTT driver produces it. -/
inductive RuntimeError where
  | InvalidConfig (message : String)
  | IoDriver (message : String)
deriving DecidableEq, Repr

/-- Embeds mqtt::BrokerEndpoint. -/
structure BrokerEndpoint where
  host : String
  port : Nat
deriving DecidableEq, Repr

/-- Embeds mqtt::MqttToml, the deserialized io.params table (TOML parsing
itself is an external collaborator). -/
structure MqttToml where
  broker : String
  client_id : Option String
  topic_in : Option String
  topic_out : Option String
  username : Option String
  password : Option String
  reconnect_ms : Option Nat
  keep_alive_s : Option Nat
  tls : Option Bool
  allow_insecure_remote : Option Bool
deriving DecidableEq, Repr

/-- Embeds mqtt::MqttIoConfig (reconnect is carried in milliseconds). -/
structure MqttIoConfig where
  endpoint : BrokerEndpoint
  client_id : String
  topic_in : String
  topic_out : String
  username : Option String
  password : Option String
  reconnect_ms : Nat
deriving DecidableEq, Repr

/-- str::trim over a character list. -/
def charsTrim (chars : List Char) : List Char :=
  ((chars.dropWhile fun c => c.isWhitespace).reverse.dropWhile
    fun c => c.isWhitespace).reverse

/-- str::strip_prefix over character lists. -/
def charsDropPrefix (pre chars : List Char) : Option (List Char) :=
  if pre.isPrefixOf chars then some (chars.drop pre.length) else none

/-- str::split_once over character lists: split at the first occurrence of
the pattern. -/
def splitFirstOn (pattern : List Char) : List Char →
    Option (List Char × List Char)
  | [] => none
  | c :: rest =>
    if pattern.isPrefixOf (c :: rest) then
      some ([], (c :: rest).drop pattern.length)
    else
      match splitFirstOn pattern rest with
      | some (before, after) => some (c :: before, after)
      | none => none

/-- str::rsplit_once for a single-character separator: split at the last
occurrence. -/
def rsplitOnce (separator : Char) (chars : List Char) :
    Option (List Char × List Char) :=
  match splitFirstOn [separator] chars.reverse with
  | none => none
  | some (revAfter, revBefore) => some (revBefore.reverse, revAfter.reverse)

/-- u16::from_str (str::parse::<u16>): optional leading plus sign, then one
or more ASCII digits, value at most 65535. -/
def parseU16 (chars : List Char) : Option Nat :=
  let digits :=
    match chars with
    | '+' :: rest => rest
    | other => other
  if digits.isEmpty then none
  else if !(digits.all fun c => c.isDigit) then none
  else
    let value := digits.foldl (fun acc c => acc * 10 + (c.toNat - 48)) 0
    if value < 65536 then some value else none

/-- Embeds mqtt::parse_port. -/
def parse_port (port : List Char) : Except RuntimeError Nat :=
  match parseU16 (charsTrim port) with
  | none => .error (.InvalidConfig "io.params.broker: invalid port")
  | some 0 => .error (.InvalidConfig "io.params.broker: port must be > 0")
  | some port => .ok port

/-- Embeds mqtt::parse_broker_endpoint: trim, strip an optional tcp:// or
mqtt:// scheme, handle the bracketed IPv6 form, otherwise split at the last
colon. -/
def parse_broker_endpoint (text : String) : Except RuntimeError BrokerEndpoint :=
  let trimmed := charsTrim text.toList
  let stripped :=
    match charsDropPrefix "tcp://".toList trimmed with
    | some rest => rest
    | none =>
      match charsDropPrefix "mqtt://".toList trimmed with
      | some rest => rest
      | none => trimmed
  match stripped with
  | '[' :: rest =>
    match splitFirstOn "]:".toList rest with
    | none => .error (.InvalidConfig "io.params.broker must be host:port")
    | some (host, port) =>
      match parse_port port with
      | .error e => .error e
      | .ok port => .ok { host := String.mk host, port }
  | _ =>
    match rsplitOnce ':' stripped with
    | none => .error (.InvalidConfig "io.params.broker must be host:port")
    | some (host, port) =>
      if (charsTrim host).isEmpty then
        .error (.InvalidConfig "io.params.broker has empty host")
      else
        match parse_port port with
        | .error e => .error e
        | .ok port => .ok { host := String.mk (charsTrim host), port }

/-- str::eq_ignore_ascii_case. -/
def eqIgnoreAsciiCase (left right : String) : Bool :=
  let lower := fun (c : Char) =>
    if 'A' ≤ c ∧ c ≤ 'Z' then Char.ofNat (c.toNat + 32) else c
  left.toList.map lower = right.toList.map lower

/-- Embeds mqtt::is_local_host. -/
def is_local_host (host : String) : Bool :=
  eqIgnoreAsciiCase host "localhost" || host = "127.0.0.1" || host = "::1"

/-- Embeds MqttIoConfig::from_params over the deserialized parameter table.
The source derives the default client id from the process id; the embedding
uses the fixed stem, which no claim observes. -/
def from_params (params : MqttToml) : Except RuntimeError MqttIoConfig :=
  match parse_broker_endpoint params.broker with
  | .error e => .error e
  | .ok endpoint =>
    let tls := params.tls.getD false
    if tls then
      .error (.InvalidConfig
        "mqtt tls=true is not yet supported (set tls=false for now)")
    else
      let allow_insecure_remote := params.allow_insecure_remote.getD false
      if !allow_insecure_remote && !is_local_host endpoint.host then
        .error (.InvalidConfig
          "mqtt insecure remote broker requires allow_insecure_remote=true")
      else if params.username.isSome ^^ params.password.isSome then
        .error (.InvalidConfig "mqtt username/password must be set together")
      else
        let keep_alive_s := max (params.keep_alive_s.getD 5) 1
        if 65535 < keep_alive_s then
          .error (.InvalidConfig "mqtt keep_alive_s must be <= 65535")
        else
          .ok { endpoint,
                client_id := params.client_id.getD "trust-runtime",
                topic_in := params.topic_in.getD "trust/io/in",
                topic_out := params.topic_out.getD "trust/io/out",
                username := params.username,
                password := params.password,
                reconnect_ms := max (params.reconnect_ms.getD 500) 1 }

/-- The iter_mut().zip copy loop in MqttIoDriver::read_inputs: overwrite the
front of the destination with the source, leaving the tail of a longer
destination as is. -/
def zipCopy : List Nat → List Nat → List Nat
  | [], _ => []
  | dst, [] => dst
  | _ :: dst, s :: src => s :: zipCopy dst src

/-- Embeds the buffer handling of MqttIoDriver::read_inputs: when the session
produced a payload, zero-fill the whole input image and copy the payload over
its front; otherwise leave the buffer untouched.  (Session management in
ensure_session only decides whether a payload exists and is not modelled.) -/
def read_inputs_buffer (payload : Option (List Nat)) (inputs : List Nat) :
    List Nat :=
  match payload with
  | none => inputs
  | some p => zipCopy (inputs.map fun _ => 0) p

end Mqtt

/-! ## Theorems -/

namespace StopAdapter

/-- For a Breakpoint stop, the emit decision equals the breakpoint filter. -/
theorem should_emit_stop_breakpoint (pauseExpected : Bool)
    (currentGeneration : Nat → Option Nat) (stop : DebugStop)
    (hreason : stop.reason = .Breakpoint) :
    (should_emit_stop pauseExpected currentGeneration stop).1 =
      breakpointChecksPass currentGeneration stop := by
  simp [should_emit_stop, hreason]

/-- Claim C1: the coordinator emits a Breakpoint stop only if it carries both
a location and a breakpoint generation equal to the file's current generation
counter; in particular, once the file's generation has advanced strictly past
the generation recorded in the stop, the stop is dropped. -/
theorem breakpoint_stop_requires_current_generation (pauseExpected : Bool)
    (currentGeneration : Nat → Option Nat) (stop : DebugStop)
    (hreason : stop.reason = .Breakpoint) :
    ((should_emit_stop pauseExpected currentGeneration stop).1 = true →
      ∃ location generation, stop.location = some location ∧
        stop.breakpointGeneration = some generation ∧
        currentGeneration location.fileId = some generation) ∧
    (∀ location generation current,
      stop.location = some location →
      stop.breakpointGeneration = some generation →
      currentGeneration location.fileId = some current →
      generation < current →
      (should_emit_stop pauseExpected currentGeneration stop).1 = false) := by
  rw [should_emit_stop_breakpoint pauseExpected currentGeneration stop hreason]
  constructor
  · intro hpass
    cases hloc : stop.location with
    | none => simp [breakpointChecksPass, hloc] at hpass
    | some location =>
      cases hgen : stop.breakpointGeneration with
      | none => simp [breakpointChecksPass, hloc, hgen] at hpass
      | some generation =>
        refine ⟨location, generation, rfl, rfl, ?_⟩
        simp only [breakpointChecksPass, hloc, hgen, decide_eq_true_eq] at hpass
        exact hpass
  · intro location generation current hloc hgen hcur hlt
    simp only [breakpointChecksPass, hloc, hgen, hcur, decide_eq_false_iff_not,
      Option.some.injEq]
    intro heq
    exact absurd heq.symm (Nat.ne_of_lt hlt)

/-- Witness for C1: a stop recorded at generation 1 is dropped once the
file's generation is 2. -/
theorem breakpoint_stop_requires_current_generation_witness :
    (should_emit_stop true (fun _ => some 2)
      { reason := .Breakpoint, location := some ⟨0, 21, 42⟩,
        threadId := some 1, breakpointGeneration := some 1 }).1 = false :=
  (breakpoint_stop_requires_current_generation true (fun _ => some 2)
      { reason := .Breakpoint, location := some ⟨0, 21, 42⟩,
        threadId := some 1, breakpointGeneration := some 1 } rfl).2
    ⟨0, 21, 42⟩ 1 2 rfl rfl rfl (by decide)

end StopAdapter

namespace StopAdapter

/-- seqsFrom splits along addition of lengths. -/
theorem seqsFrom_add (m n seq : Nat) :
    seqsFrom seq (m + n) = seqsFrom seq m ++ seqsFrom (seq + m) n := by
  induction m generalizing seq with
  | zero => simp [seqsFrom]
  | succ m ih =>
    rw [Nat.succ_add, seqsFrom, seqsFrom, ih (seq + 1)]
    simp [Nat.add_comm, Nat.add_assoc, Nat.add_left_comm]

/-- The events of emit_stop carry the next two or three counter values. -/
theorem emit_stop_seqs (seq : Nat) (watchChanged : Bool) :
    (emit_stop seq watchChanged).1.map Event.seq =
      seqsFrom seq (emit_stop seq watchChanged).1.length ∧
    (emit_stop seq watchChanged).2 =
      seq + (emit_stop seq watchChanged).1.length := by
  cases watchChanged <;> simp [emit_stop, seqsFrom]

/-- Consecutive counter values below the wrap bound form a gap-free strictly
increasing chain. -/
theorem seqsFrom_chain (n : Nat) : ∀ seq : Nat, seq + n ≤ U32_MOD →
    List.Chain' (fun a b => b = a + 1) (seqsFrom seq n) := by
  induction n with
  | zero => intro seq _; simp [seqsFrom]
  | succ n ih =>
    intro seq hle
    rw [seqsFrom]
    cases n with
    | zero => simp [seqsFrom]
    | succ n =>
      rw [seqsFrom]
      refine List.Chain'.cons ?_ ?_
      · have h1 : seq < U32_MOD := by omega
        have h2 : seq + 1 < U32_MOD := by omega
        rw [Nat.mod_eq_of_lt h1, Nat.mod_eq_of_lt h2]
      · have := ih (seq + 1) (by omega)
        rw [seqsFrom] at this
        exact this

end StopAdapter

namespace StopAdapter

/-- Counterexample for C5: the shared u32 sequence counter wraps.  Running
the coordinator with the counter at 2^32 - 1 over a single passing Step stop
emits the output event with seq 4294967295 followed by the stopped event with
seq 0, so a later event carries a lower sequence number than an earlier
one. -/
theorem coordinator_seq_wraps_at_u32 :
    ((runCoordinator true (fun _ => none) (U32_MOD - 1)
        [({ reason := .Step, location := none, threadId := some 1,
            breakpointGeneration := none }, false)]).1.map Event.seq) =
      [U32_MOD - 1, 0] ∧ (0 : Nat) < U32_MOD - 1 := by
  constructor
  · decide
  · decide

/-- Claim C5 (amended): across the life of the coordinator the emitted
events carry consecutive counter values modulo 2^32 — the i-th emitted event
has sequence number (s0 + i) mod 2^32 — and the final counter is the start
plus the number of emitted events; in particular the sequence numbers are
monotonically increasing and gap-free as long as the 32-bit counter does not
wrap. -/
theorem coordinator_seqs_consecutive (currentGeneration : Nat → Option Nat)
    (stops : List (DebugStop × Bool)) (pauseExpected : Bool) (seq : Nat) :
    ((runCoordinator pauseExpected currentGeneration seq stops).1.map Event.seq =
      seqsFrom seq (runCoordinator pauseExpected currentGeneration seq stops).1.length) ∧
    ((runCoordinator pauseExpected currentGeneration seq stops).2 =
      seq + (runCoordinator pauseExpected currentGeneration seq stops).1.length) ∧
    (seq + (runCoordinator pauseExpected currentGeneration seq stops).1.length ≤
        U32_MOD →
      List.Chain' (fun a b => b = a + 1)
        ((runCoordinator pauseExpected currentGeneration seq stops).1.map Event.seq)) := by
  have main : ∀ (stops : List (DebugStop × Bool)) (pauseExpected : Bool) (seq : Nat),
      ((runCoordinator pauseExpected currentGeneration seq stops).1.map Event.seq =
        seqsFrom seq (runCoordinator pauseExpected currentGeneration seq stops).1.length) ∧
      ((runCoordinator pauseExpected currentGeneration seq stops).2 =
        seq + (runCoordinator pauseExpected currentGeneration seq stops).1.length) := by
    intro stops
    induction stops with
    | nil => intro pauseExpected seq; simp [runCoordinator, seqsFrom]
    | cons head rest ih =>
      intro pauseExpected seq
      obtain ⟨stop, watchChanged⟩ := head
      rw [runCoordinator]
      simp only [coordinatorStep]
      by_cases hemit : (should_emit_stop pauseExpected currentGeneration stop).1
      · simp only [hemit, if_true]
        obtain ⟨hmap, hlen⟩ := emit_stop_seqs seq watchChanged
        obtain ⟨ihmap, ihlen⟩ :=
          ih (should_emit_stop pauseExpected currentGeneration stop).2
            (emit_stop seq watchChanged).2
        constructor
        · rw [List.map_append, hmap, ihmap, List.length_append, seqsFrom_add, hlen]
        · rw [ihlen, hlen, List.length_append]
          omega
      · simp only [hemit, if_false, Bool.false_eq_true]
        obtain ⟨ihmap, ihlen⟩ :=
          ih (should_emit_stop pauseExpected currentGeneration stop).2 seq
        simpa using ⟨ihmap, ihlen⟩
  obtain ⟨hmap, hlen⟩ := main stops pauseExpected seq
  refine ⟨hmap, hlen, fun hbound => ?_⟩
  rw [hmap]
  exact seqsFrom_chain _ seq hbound

/-- Witness for C5 (amended): a concrete two-stop run starting at counter 5
emits four events whose sequence numbers form the gap-free chain
5, 6, 7, 8. -/
theorem coordinator_seqs_consecutive_witness :
    List.Chain' (fun a b => b = a + 1)
      ((runCoordinator true (fun _ => none) 5
        [({ reason := .Step, location := none, threadId := some 1,
            breakpointGeneration := none }, false),
         ({ reason := .Step, location := none, threadId := some 1,
            breakpointGeneration := none }, false)]).1.map Event.seq) :=
  (coordinator_seqs_consecutive (fun _ => none)
    [({ reason := .Step, location := none, threadId := some 1,
        breakpointGeneration := none }, false),
     ({ reason := .Step, location := none, threadId := some 1,
        breakpointGeneration := none }, false)] true 5).2.2 (by decide)

end StopAdapter

namespace Mqtt

/-- Zero-filling then copying over the front equals the payload prefix padded
with zeros to the buffer length. -/
theorem zipCopy_zero_fill (inputs : List Nat) : ∀ payload : List Nat,
    zipCopy (inputs.map fun _ => 0) payload =
      payload.take inputs.length ++
        List.replicate (inputs.length - payload.length) 0 := by
  induction inputs with
  | nil => intro payload; simp [zipCopy]
  | cons head rest ih =>
    intro payload
    cases payload with
    | nil =>
      have hz : ∀ dst : List Nat, zipCopy dst [] = dst := by
        intro dst; cases dst <;> rfl
      rw [hz]
      simp [List.map_const', List.replicate_succ]
    | cons p ps =>
      simp only [List.map_cons, zipCopy, List.length_cons, List.take_succ_cons,
        Nat.succ_sub_succ, List.cons_append, List.cons.injEq, true_and]
      exact ih ps

/-- Claim C10: when read_inputs obtains a new payload, the input image equals
the payload truncated to the buffer length and padded with zeros — bytes
beyond the payload length are zeroed, not retained; when no payload is
available, the buffer is left unchanged. -/
theorem read_inputs_zero_fills_beyond_payload (payload inputs : List Nat) :
    read_inputs_buffer (some payload) inputs =
      payload.take inputs.length ++
        List.replicate (inputs.length - payload.length) 0 ∧
    read_inputs_buffer none inputs = inputs := by
  exact ⟨zipCopy_zero_fill inputs payload, rfl⟩

end Mqtt

namespace Historian

/-- Claim C9: query clamps the requested limit into 1..=5000 before use; in
particular a query with limit 0 behaves like limit 1 and still returns
exactly one sample whenever at least one sample passes the variable and
since_ms filters. -/
theorem query_clamps_limit (samples : List HistorianSample)
    (variableFilter : Option String) (since_ms : Option Nat) :
    (∀ limit, 1 ≤ rustClamp limit 1 5000 ∧ rustClamp limit 1 5000 ≤ 5000) ∧
    query samples variableFilter since_ms 0 =
      query samples variableFilter since_ms 1 ∧
    ((∃ sample ∈ samples, matchesVariable variableFilter sample = true ∧
        matchesSince since_ms sample = true) →
      (query samples variableFilter since_ms 0).length = 1) := by
  refine ⟨fun limit => ?_, rfl, fun hmatch => ?_⟩
  · unfold rustClamp
    split <;> [omega; (split <;> omega)]
  · obtain ⟨sample, hmem, hvar, hsince⟩ := hmatch
    have hfmem : sample ∈ (samples.reverse.filter
        (matchesVariable variableFilter)).filter (matchesSince since_ms) := by
      rw [List.mem_filter, List.mem_filter]
      exact ⟨⟨List.mem_reverse.mpr hmem, hvar⟩, hsince⟩
    have hpos : 0 < ((samples.reverse.filter
        (matchesVariable variableFilter)).filter (matchesSince since_ms)).length :=
      List.length_pos.mpr (List.ne_nil_of_mem hfmem)
    show (((((samples.reverse.filter (matchesVariable variableFilter)).filter
      (matchesSince since_ms)).take (rustClamp 0 1 5000)).reverse)).length = 1
    rw [List.length_reverse, List.length_take]
    have : rustClamp 0 1 5000 = 1 := rfl
    rw [this]
    omega

/-- Witness for C9: a single matching sample is returned even at limit 0. -/
theorem query_clamps_limit_witness :
    (query [{ timestamp_ms := 100, source_time_ns := 0,
              variable_path := "Temp", value := .Integer 7 }]
      (some "Temp") none 0).length = 1 :=
  (query_clamps_limit
      [{ timestamp_ms := 100, source_time_ns := 0,
         variable_path := "Temp", value := .Integer 7 }]
      (some "Temp") none).2.2
    ⟨{ timestamp_ms := 100, source_time_ns := 0,
       variable_path := "Temp", value := .Integer 7 },
      by decide, by decide, by decide⟩

end Historian

namespace Registry

/-- The pairwise comparison loop accepts exactly the equal file lists (given
equal lengths, which verify checks first). -/
theorem verifyPairs_ok_iff : ∀ expected actual : List PackageFileDigest,
    expected.length = actual.length →
    (verifyPairs (expected.zip actual) = .ok () ↔ expected = actual) := by
  intro expected
  induction expected with
  | nil =>
    intro actual hlen
    cases actual with
    | nil => simp [verifyPairs]
    | cons a rest => simp at hlen
  | cons e rest ih =>
    intro actual hlen
    cases actual with
    | nil => simp at hlen
    | cons a arest =>
      rw [List.zip_cons_cons, verifyPairs]
      by_cases hp : e.path = a.path
      · by_cases hb : e.bytes = a.bytes
        · by_cases hs : e.sha256 = a.sha256
          · have hrest := ih arest (by simpa using hlen)
            simp only [hp, hb, hs, ne_eq, not_true_eq_false, if_false, hrest,
              List.cons.injEq]
            constructor
            · intro htail
              refine ⟨?_, htail⟩
              cases e; cases a
              simp_all
            · intro h
              exact h.2
          · simp only [hp, hb, hs, ne_eq, not_true_eq_false, if_false,
              not_false_eq_true, if_true]
            constructor
            · intro h; cases h
            · intro h
              rw [List.cons.injEq] at h
              exact absurd (by rw [h.1]) hs
        · simp only [hp, hb, ne_eq, not_true_eq_false, if_false,
            not_false_eq_true, if_true]
          constructor
          · intro h; cases h
          · intro h
            rw [List.cons.injEq] at h
            exact absurd (by rw [h.1]) hb
      · simp only [hp, ne_eq, not_false_eq_true, if_true]
        constructor
        · intro h; cases h
        · intro h
          rw [List.cons.injEq] at h
          exact absurd (by rw [h.1]) hp

/-- Claim C4: verification succeeds exactly when the collected digests agree
with the stored metadata file-by-file (path, byte count and sha256, compared
in order against the same file count) and the aggregated package digest —
SHA-256 over path, 0x00, sha256, 0x00, bytes_le of every file in sorted
order — matches the metadata digest. -/
theorem verify_succeeds_iff_digests_match (digests : List PackageFileDigest)
    (metadata : PackageMetadata) :
    verify_bundle_tree_against_metadata digests metadata = .ok () ↔
      digests = metadata.files ∧
        aggregate_package_sha digests = metadata.package_sha256 := by
  unfold verify_bundle_tree_against_metadata
  by_cases hlen : digests.length = metadata.files.length
  · simp only [hlen, ne_eq, not_true_eq_false, if_false]
    cases hv : verifyPairs (metadata.files.zip digests) with
    | error e =>
      constructor
      · intro h; cases h
      · intro h
        have : verifyPairs (metadata.files.zip digests) = .ok () :=
          (verifyPairs_ok_iff metadata.files digests hlen.symm).mpr h.1.symm
        rw [hv] at this
        cases this
    | ok u =>
      cases u
      have hfiles : metadata.files = digests :=
        (verifyPairs_ok_iff metadata.files digests hlen.symm).mp hv
      by_cases hsha : metadata.package_sha256 = aggregate_package_sha digests
      · simp [hsha, hfiles]
      · simp only [hsha, ne_eq, not_false_eq_true, if_true]
        constructor
        · intro h; cases h
        · intro h
          exact absurd h.2.symm hsha
  · simp only [hlen, ne_eq, not_false_eq_true, if_true]
    constructor
    · intro h; cases h
    · intro h
      exact absurd (by rw [h.1]) hlen

end Registry

namespace Pairing

/-- Everything prune_expired_tokens keeps is unexpired. -/
theorem prune_sound (tokens : List PairingToken) (now : Nat) :
    ∀ entry ∈ prune_expired_tokens tokens now, now ≤ entry.expires_at := by
  intro entry hmem
  have := List.mem_filter.mp hmem
  exact of_decide_eq_true this.2

/-- The state claim leaves behind never contains an expired token. -/
theorem claim_tokens_pruned (state : PairingState) (now : Nat) (code : String)
    (requested_role : Option AccessRole) (fresh_token : String) :
    ∀ entry ∈ ((claim state now code requested_role fresh_token).2).tokens,
      now ≤ entry.expires_at := by
  intro entry hmem
  cases hpend : state.pending with
  | none =>
    simp only [claim, hpend] at hmem
    exact prune_sound state.tokens now entry hmem
  | some pending =>
    simp only [claim, hpend] at hmem
    split_ifs at hmem with h1 h2 h3
    · exact prune_sound state.tokens now entry hmem
    · exact prune_sound state.tokens now entry hmem
    · exact prune_sound state.tokens now entry hmem
    · rcases List.mem_append.mp hmem with hleft | hright
      · exact prune_sound state.tokens now entry hleft
      · rw [List.mem_singleton.mp hright]
        exact Nat.le_add_right now PAIRING_TOKEN_TTL_SECS

/-- When claim hands out a token, the stored entry is the freshly issued one:
role sanitized (Engineer at most), created now, expiring thirty days
later. -/
theorem claim_issued_token_shape (state : PairingState) (now : Nat)
    (code : String) (requested_role : Option AccessRole)
    (fresh_token issued : String)
    (hissued : (claim state now code requested_role fresh_token).1 = some issued) :
    ((claim state now code requested_role fresh_token).2).tokens.getLast? =
      some { id := "pair-" ++ toString now, token := fresh_token,
             created_at := now, enabled := true,
             role := sanitize_requested_role requested_role,
             expires_at := now + PAIRING_TOKEN_TTL_SECS } := by
  cases hpend : state.pending with
  | none => simp [claim, hpend] at hissued
  | some pending =>
    simp only [claim, hpend] at hissued ⊢
    split_ifs at hissued ⊢
    simp_all [List.getLast?_concat]

/-- Claim C6: pairing can never mint an Admin token — a requested Admin role
is silently downgraded to Engineer; every issued token expires exactly
PAIRING_TOKEN_TTL_SECS (30 days) after its creation time; and every
state-touching call (claim, validate, list, revoke, start_pairing) leaves no
expired token behind. -/
theorem pairing_engineer_ceiling_expiry_and_pruning (state : PairingState)
    (now : Nat) (code : String) (requested_role : Option AccessRole)
    (fresh_token id token : String) :
    (sanitize_requested_role (some .Admin) = .Engineer ∧
      ∀ role, sanitize_requested_role role ≠ .Admin) ∧
    (∀ issued, (claim state now code requested_role fresh_token).1 = some issued →
      ((claim state now code requested_role fresh_token).2).tokens.getLast? =
        some { id := "pair-" ++ toString now, token := fresh_token,
               created_at := now, enabled := true,
               role := sanitize_requested_role requested_role,
               expires_at := now + PAIRING_TOKEN_TTL_SECS }) ∧
    (∀ entry ∈ ((claim state now code requested_role fresh_token).2).tokens,
      now ≤ entry.expires_at) ∧
    (∀ entry ∈ ((validate_with_role state now token).2).tokens,
      now ≤ entry.expires_at) ∧
    (∀ entry ∈ ((list state now).2).tokens, now ≤ entry.expires_at) ∧
    (∀ entry ∈ ((revoke state now id).2).tokens, now ≤ entry.expires_at) ∧
    (∀ entry ∈ ((start_pairing state now code).2).tokens,
      now ≤ entry.expires_at) := by
  refine ⟨⟨rfl, ?_⟩, ?_, claim_tokens_pruned state now code requested_role fresh_token,
    ?_, ?_, ?_, ?_⟩
  · intro role
    cases role with
    | none => simp [sanitize_requested_role]
    | some r => cases r <;> simp [sanitize_requested_role]
  · intro issued hissued
    exact claim_issued_token_shape state now code requested_role fresh_token
      issued hissued
  · intro entry hmem
    exact prune_sound state.tokens now entry hmem
  · intro entry hmem
    exact prune_sound state.tokens now entry hmem
  · intro entry hmem
    simp only [revoke] at hmem
    obtain ⟨source, hsource, hentry⟩ := List.mem_map.mp hmem
    have hsrc := prune_sound state.tokens now source hsource
    by_cases hid : source.id = id
    · rw [← hentry]
      simpa [hid] using hsrc
    · rw [← hentry]
      simpa [hid] using hsrc
  · intro entry hmem
    exact prune_sound state.tokens now entry hmem

/-- Witness for C6: claiming with a requested Admin role at time 1000 stores
an Engineer token that expires thirty days later. -/
theorem pairing_engineer_ceiling_witness :
    ((claim { tokens := [], pending := some { code := "123456", expires_at := 1300 } }
        1000 "123456" (some .Admin) "tok").2).tokens.getLast? =
      some { id := "pair-1000", token := "tok", created_at := 1000,
             enabled := true, role := .Engineer,
             expires_at := 1000 + PAIRING_TOKEN_TTL_SECS } :=
  (pairing_engineer_ceiling_expiry_and_pruning
      { tokens := [], pending := some { code := "123456", expires_at := 1300 } }
      1000 "123456" (some .Admin) "tok" "" "").2.1 "tok" (by decide)

end Pairing

namespace Pairing

/-- Claim C8: with an unexpired pending code, a claim with a non-matching
code returns none and restores the pending code, so a later claim with the
correct code (while the code is still unexpired and the enabled-token cap is
not reached) succeeds; with an expired pending code, claim consumes it and
returns none, and every claim on a state with no pending code fails and
leaves the pending slot empty (until start_pairing issues a new code). -/
theorem claim_pending_code_semantics (state : PairingState)
    (pending : PendingCode) (now : Nat) (code : String)
    (requested_role : Option AccessRole) (fresh_token : String) :
    (state.pending = some pending → ¬pending.expires_at < now →
      pending.code ≠ strTrim code →
      claim state now code requested_role fresh_token =
        (none, { tokens := prune_expired_tokens state.tokens now,
                 pending := some pending }) ∧
      (∀ (now2 : Nat) (code2 : String) (role2 : Option AccessRole)
          (fresh2 : String),
        ¬pending.expires_at < now2 → pending.code = strTrim code2 →
        ((prune_expired_tokens (prune_expired_tokens state.tokens now) now2).filter
            (fun entry => entry.enabled)).length < PAIRING_MAX_TOKENS →
        (claim (claim state now code requested_role fresh_token).2 now2 code2
            role2 fresh2).1 = some fresh2)) ∧
    (state.pending = some pending → pending.expires_at < now →
      claim state now code requested_role fresh_token =
        (none, { tokens := prune_expired_tokens state.tokens now,
                 pending := none })) ∧
    (state.pending = none →
      claim state now code requested_role fresh_token =
        (none, { tokens := prune_expired_tokens state.tokens now,
                 pending := none })) := by
  refine ⟨fun hpend hunexpired hmismatch => ?_, fun hpend hexpired => ?_,
    fun hpend => ?_⟩
  · have hfirst : claim state now code requested_role fresh_token =
        (none, { tokens := prune_expired_tokens state.tokens now,
                 pending := some pending }) := by
      simp only [claim, hpend]
      rw [if_neg hunexpired, if_pos hmismatch]
    refine ⟨hfirst, fun now2 code2 role2 fresh2 hunexpired2 hmatch2 hcap => ?_⟩
    rw [hfirst]
    simp only [claim]
    rw [if_neg hunexpired2, if_neg (by simp [hmatch2]), if_neg (by omega)]
  · simp only [claim, hpend]
    rw [if_pos hexpired]
  · simp only [claim, hpend]

/-- Witness for C8: a wrong code at time 1000 leaves the pending code in
place, and the right code at time 1100 then succeeds. -/
theorem claim_pending_code_semantics_witness :
    claim ⟨[], some ⟨"123456", 1300⟩⟩ 1000 "999999" none "tokA" =
      (none, ⟨[], some ⟨"123456", 1300⟩⟩) ∧
    (claim (claim ⟨[], some ⟨"123456", 1300⟩⟩ 1000 "999999" none "tokA").2
        1100 "123456" none "tokB").1 = some "tokB" := by
  have h := (claim_pending_code_semantics ⟨[], some ⟨"123456", 1300⟩⟩
    ⟨"123456", 1300⟩ 1000 "999999" none "tokA").1 rfl (by decide) (by decide)
  exact ⟨h.1, h.2 1100 "123456" none "tokB" (by decide) (by decide) (by decide)⟩

end Pairing

namespace Historian

/-- Claim C3: when a previous capture exists and the new timestamp is within
the sampling interval, capture_snapshot_at records nothing and leaves the
whole historian state — ring, journal, counters, alert trackers and
last_capture — untouched, and schedules no hook dispatch. -/
theorem capture_skips_within_interval (service : HistorianService)
    (fuel : Nat) (inner : HistorianInner) (snapshot : DebugSnapshot)
    (timestamp_ms last : Nat)
    (hlast : inner.last_capture_ms = some last)
    (hwithin : timestamp_ms - last < service.config.sample_interval_ms) :
    capture_snapshot_at service fuel inner snapshot timestamp_ms =
      (0, inner, []) := by
  have hbound : timestamp_ms - last < max service.config.sample_interval_ms 1 :=
    lt_of_lt_of_le hwithin (le_max_left _ _)
  simp [capture_snapshot_at, hlast, hbound]

/-- Witness for C3: a capture 50 ms after the previous one, with a 100 ms
interval, returns 0 and changes nothing. -/
theorem capture_skips_within_interval_witness :
    capture_snapshot_at
      { config := { enabled := true, sample_interval_ms := 100, mode := .All,
                    max_entries := 1000 },
        include_patterns := [], alert_rules := [] }
      8
      { samples := [], tracked_variables := [], samples_total := 0,
        last_capture_ms := some 1000, alert_trackers := [], alerts := [],
        alerts_total := 0, journal := [] }
      { storage := { globals := [], retain := [], instances := [] },
        nowNanos := 0 }
      1050 =
      (0,
        { samples := [], tracked_variables := [], samples_total := 0,
          last_capture_ms := some 1000, alert_trackers := [], alerts := [],
          alerts_total := 0, journal := [] },
        []) :=
  capture_skips_within_interval
    { config := { enabled := true, sample_interval_ms := 100, mode := .All,
                  max_entries := 1000 },
      include_patterns := [], alert_rules := [] }
    8
    { samples := [], tracked_variables := [], samples_total := 0,
      last_capture_ms := some 1000, alert_trackers := [], alerts := [],
      alerts_total := 0, journal := [] }
    { storage := { globals := [], retain := [], instances := [] },
      nowNanos := 0 }
    1050 1000 rfl (by decide)

end Historian


namespace Historian

/-- alertRuleStep emits Triggered exactly on a breach that moves an inactive
tracker's consecutive count to the debounce threshold. -/
theorem alertRuleStep_triggered_iff (rule : CompiledAlertRule)
    (latest : List (String × ℚ)) (timestamp_ms : Nat) (tracker : AlertTracker) :
    (((alertRuleStep rule latest timestamp_ms tracker).2.map
        fun event => event.1.state) = some .Triggered) ↔
      breachedAt rule latest = true ∧ tracker.active = false ∧
        rule.debounce_samples ≤ satAddU32 tracker.consecutive 1 := by
  cases hv : alistGet latest rule.variable_path with
  | none =>
    cases ht : tracker.active <;>
      simp [alertRuleStep, breachedAt, hv, ht]
  | some v =>
    cases hbr : threshold_breached v rule.above rule.below with
    | false =>
      cases ht : tracker.active <;>
        simp [alertRuleStep, breachedAt, hv, hbr, ht]
    | true =>
      cases ht : tracker.active with
      | true => simp [alertRuleStep, breachedAt, hv, hbr, ht]
      | false =>
        by_cases hde : rule.debounce_samples ≤ satAddU32 tracker.consecutive 1
        · simp [alertRuleStep, breachedAt, hv, hbr, ht, hde]
        · simp [alertRuleStep, breachedAt, hv, hbr, ht, hde]

/-- On a non-breaching (or missing) sample, alertRuleStep resets the
consecutive counter and emits Cleared exactly when the tracker was active. -/
theorem alertRuleStep_nonbreach (rule : CompiledAlertRule)
    (latest : List (String × ℚ)) (timestamp_ms : Nat) (tracker : AlertTracker)
    (hbr : breachedAt rule latest = false) :
    (alertRuleStep rule latest timestamp_ms tracker).1.consecutive = 0 ∧
      ((((alertRuleStep rule latest timestamp_ms tracker).2.map
          fun event => event.1.state) = some .Cleared) ↔
        tracker.active = true) := by
  rw [breachedAt] at hbr
  cases ht : tracker.active <;>
    simp [alertRuleStep, hbr, ht]

/-- One alertRuleStep either emits nothing and keeps the activation flag, or
emits Triggered flipping inactive to active, or emits Cleared flipping active
to inactive. -/
theorem alertRuleStep_cases (rule : CompiledAlertRule)
    (latest : List (String × ℚ)) (timestamp_ms : Nat) (tracker : AlertTracker) :
    ((alertRuleStep rule latest timestamp_ms tracker).2 = none ∧
      (alertRuleStep rule latest timestamp_ms tracker).1.active =
        tracker.active) ∨
    (((alertRuleStep rule latest timestamp_ms tracker).2.map
        fun event => event.1.state) = some .Triggered ∧
      tracker.active = false ∧
      (alertRuleStep rule latest timestamp_ms tracker).1.active = true) ∨
    (((alertRuleStep rule latest timestamp_ms tracker).2.map
        fun event => event.1.state) = some .Cleared ∧
      tracker.active = true ∧
      (alertRuleStep rule latest timestamp_ms tracker).1.active = false) := by
  cases hb : (match alistGet latest rule.variable_path with
    | some v => threshold_breached v rule.above rule.below
    | none => false) with
  | false =>
    cases ht : tracker.active with
    | true => right; right; simp [alertRuleStep, hb, ht]
    | false => left; simp [alertRuleStep, hb, ht]
  | true =>
    cases ht : tracker.active with
    | true => left; simp [alertRuleStep, hb, ht]
    | false =>
      by_cases hde : rule.debounce_samples ≤ satAddU32 tracker.consecutive 1
      · right; left; simp [alertRuleStep, hb, ht, hde]
      · left; simp [alertRuleStep, hb, ht, hde]

/-- Over any capture sequence, the per-rule event stream alternates
Triggered/Cleared, starting with Cleared only if the tracker starts
active. -/
theorem runAlertRule_alternates (rule : CompiledAlertRule)
    (captures : List (List (String × ℚ) × Nat)) : ∀ tracker : AlertTracker,
    alternatesFrom (if tracker.active then .Cleared else .Triggered)
      (runAlertRule rule tracker captures).2 = true := by
  induction captures with
  | nil => intro tracker; simp [runAlertRule, alternatesFrom]
  | cons head rest ih =>
    intro tracker
    obtain ⟨latest, timestamp_ms⟩ := head
    simp only [runAlertRule]
    have htail := ih (alertRuleStep rule latest timestamp_ms tracker).1
    rcases alertRuleStep_cases rule latest timestamp_ms tracker with
      ⟨hnone, hact⟩ | ⟨hev, hwas, hnow⟩ | ⟨hev, hwas, hnow⟩
    · rw [hact] at htail
      simpa [hnone] using htail
    · rw [hnow] at htail
      simp only [if_true] at htail
      rw [hev]
      simp only [hwas, Bool.false_eq_true, if_false, Option.toList_some,
        List.singleton_append]
      simpa [alternatesFrom] using htail
    · rw [hnow] at htail
      simp only [Bool.false_eq_true, if_false] at htail
      rw [hev]
      simp only [hwas, if_true, Option.toList_some, List.singleton_append]
      simpa [alternatesFrom] using htail

end Historian

namespace Historian

/-- Claim C2: for every alert rule and capture sequence, evaluate_alerts'
per-rule step emits Triggered exactly when the rule is not active and the
consecutive-breach counter (after the breach increment) reaches
debounce_samples; a non-breaching or missing sample resets the counter to 0
and emits Cleared exactly when the rule was active; and over any run from the
initial tracker the events strictly alternate starting with Triggered, so a
Cleared event can only follow a prior Triggered event for that rule. -/
theorem alert_debounce_and_alternation (rule : CompiledAlertRule)
    (latest : List (String × ℚ)) (timestamp_ms : Nat) (tracker : AlertTracker)
    (captures : List (List (String × ℚ) × Nat)) :
    ((((alertRuleStep rule latest timestamp_ms tracker).2.map
        fun event => event.1.state) = some .Triggered) ↔
      breachedAt rule latest = true ∧ tracker.active = false ∧
        rule.debounce_samples ≤ satAddU32 tracker.consecutive 1) ∧
    (breachedAt rule latest = false →
      (alertRuleStep rule latest timestamp_ms tracker).1.consecutive = 0 ∧
        ((((alertRuleStep rule latest timestamp_ms tracker).2.map
            fun event => event.1.state) = some .Cleared) ↔
          tracker.active = true)) ∧
    alternatesFrom .Triggered
      (runAlertRule rule { active := false, consecutive := 0 } captures).2 =
      true := by
  refine ⟨alertRuleStep_triggered_iff rule latest timestamp_ms tracker,
    alertRuleStep_nonbreach rule latest timestamp_ms tracker, ?_⟩
  have h := runAlertRule_alternates rule captures
    { active := false, consecutive := 0 }
  simpa using h

/-- Witness for C2: for the rule Temp > 50 with debounce 2, a non-breaching
sample at value 45 against an active tracker resets the counter and emits
Cleared. -/
theorem alert_debounce_and_alternation_witness :
    (alertRuleStep
        { name := "high_temp", variable_path := "Temp", above := some 50,
          below := none, debounce_samples := 2, hook := none }
        [("Temp", 45)] 1030 { active := true, consecutive := 2 }).1.consecutive
      = 0 ∧
    ((((alertRuleStep
        { name := "high_temp", variable_path := "Temp", above := some 50,
          below := none, debounce_samples := 2, hook := none }
        [("Temp", 45)] 1030 { active := true, consecutive := 2 }).2.map
          fun event => event.1.state) = some .Cleared) ↔
      ({ active := true, consecutive := 2 } : AlertTracker).active = true) :=
  (alert_debounce_and_alternation
      { name := "high_temp", variable_path := "Temp", above := some 50,
        below := none, debounce_samples := 2, hook := none }
      [("Temp", 45)] 1030 { active := true, consecutive := 2 } []).2.1
    (by decide)

end Historian

namespace Mqtt

/-- Counterexample for C7: a loopback broker without allow_insecure_remote is
not always accepted — with tls = true the very same loopback configuration is
rejected (the tls check precedes every other validation), so the acceptance
half of the claim fails as stated. -/
theorem loopback_with_tls_rejected :
    from_params
      { broker := "127.0.0.1:1883", client_id := none, topic_in := none,
        topic_out := none, username := none, password := none,
        reconnect_ms := none, keep_alive_s := none, tls := some true,
        allow_insecure_remote := none } =
      .error (.InvalidConfig
        "mqtt tls=true is not yet supported (set tls=false for now)") := rfl

/-- Claim C7 (amended): given a parseable broker endpoint, from_params fails
with InvalidConfig whenever the host is not loopback and
allow_insecure_remote is not set, and whenever exactly one of username and
password is set; and it accepts a loopback broker without the flag, or any
broker with allow_insecure_remote = true, provided additionally that tls is
not set to true, credentials are both set or both absent, and keep_alive_s
does not exceed 65535. -/
theorem from_params_security (params : MqttToml) (endpoint : BrokerEndpoint)
    (hparse : parse_broker_endpoint params.broker = .ok endpoint) :
    (is_local_host endpoint.host = false →
      params.allow_insecure_remote.getD false = false →
      ∃ message, from_params params = .error (.InvalidConfig message)) ∧
    ((params.username.isSome ^^ params.password.isSome) = true →
      ∃ message, from_params params = .error (.InvalidConfig message)) ∧
    (params.tls.getD false = false →
      (is_local_host endpoint.host = true ∨
        params.allow_insecure_remote.getD false = true) →
      (params.username.isSome ^^ params.password.isSome) = false →
      max (params.keep_alive_s.getD 5) 1 ≤ 65535 →
      ∃ config, from_params params = .ok config) := by
  refine ⟨fun hremote hflag => ?_, fun hxor => ?_, fun htls hpass hcred hkeep => ?_⟩
  · cases htls : params.tls.getD false with
    | true =>
      exact ⟨"mqtt tls=true is not yet supported (set tls=false for now)",
        by simp [from_params, hparse, htls]⟩
    | false =>
      exact ⟨"mqtt insecure remote broker requires allow_insecure_remote=true",
        by simp [from_params, hparse, htls, hflag, hremote]⟩
  · cases htls : params.tls.getD false with
    | true =>
      exact ⟨"mqtt tls=true is not yet supported (set tls=false for now)",
        by simp [from_params, hparse, htls]⟩
    | false =>
      cases hgate : (!params.allow_insecure_remote.getD false &&
          !is_local_host endpoint.host) with
      | true =>
        exact ⟨"mqtt insecure remote broker requires allow_insecure_remote=true",
          by simp [from_params, hparse, htls, hgate]⟩
      | false =>
        exact ⟨"mqtt username/password must be set together",
          by simp [from_params, hparse, htls, hgate, hxor]⟩
  · have hgate : (!params.allow_insecure_remote.getD false &&
        !is_local_host endpoint.host) = false := by
      rcases hpass with hlocal | hallow
      · simp [hlocal]
      · simp [hallow]
    refine ⟨{ endpoint := endpoint,
              client_id := params.client_id.getD "trust-runtime",
              topic_in := params.topic_in.getD "trust/io/in",
              topic_out := params.topic_out.getD "trust/io/out",
              username := params.username, password := params.password,
              reconnect_ms := max (params.reconnect_ms.getD 500) 1 }, ?_⟩
    simp only [from_params, hparse, htls, hgate, hcred, Bool.false_eq_true,
      if_false]
    rw [if_neg (by omega)]

/-- Witness for C7 (amended): a non-loopback broker with
allow_insecure_remote = true and no credentials is accepted. -/
theorem from_params_security_witness :
    ∃ config, from_params
      { broker := "10.10.0.9:1883", client_id := none, topic_in := none,
        topic_out := none, username := none, password := none,
        reconnect_ms := none, keep_alive_s := none, tls := none,
        allow_insecure_remote := some true } = .ok config :=
  (from_params_security
      { broker := "10.10.0.9:1883", client_id := none, topic_in := none,
        topic_out := none, username := none, password := none,
        reconnect_ms := none, keep_alive_s := none, tls := none,
        allow_insecure_remote := some true }
      { host := "10.10.0.9", port := 1883 } rfl).2.2
    rfl (Or.inr rfl) rfl (by decide)

end Mqtt
